import Mathlib

/-!
Shallow embedding of `agenteval.evaluators.claude_3.evaluator`
(`Claude3Evaluator`): the structured-output extractor
`_extract_content_from_xml`, the judge-call adapter `_generate` and its
wrappers, and the turn loop of `evaluate`.

External collaborators (the judge model, the target agent and the rendered
prompt templates) are modelled as oracles: the judge is a function from the
judge-call counter to the raw completion text, the target a function from the
target-call counter to its reply.  Classes of this repository that are not
part of the excerpted sources (`Conversation`, `TestResult`, the
`BaseEvaluator` adapters) are modelled from the spec; their doc comments say
so explicitly.
-/

namespace AgentEval

/-- Whitespace test of a single character as used by Python `str.strip()`
(the characters for which `str.isspace()` holds). -/
def isPySpace (c : Char) : Bool :=
  let n := c.toNat
  (9 ≤ n && n ≤ 13) || (28 ≤ n && n ≤ 32) || n = 133 || n = 160 ||
  n = 0x1680 || (0x2000 ≤ n && n ≤ 0x200A) || n = 0x2028 || n = 0x2029 ||
  n = 0x202F || n = 0x205F || n = 0x3000

/-- Python `str.strip()`: drop leading and trailing whitespace. -/
def pyStrip (l : List Char) : List Char :=
  ((l.dropWhile isPySpace).reverse.dropWhile isPySpace).reverse

/-- Test whether `pat` occurs in `s` starting at index `i`. -/
def isPrefixAt (pat s : List Char) (i : Nat) : Bool :=
  pat.isPrefixOf (s.drop i)

/-- Index of the first occurrence of `pat` in `s` at or after index `i`
(`none` if there is no occurrence). -/
def findFrom (pat s : List Char) (i : Nat) : Option Nat :=
  (List.range (s.length + 1)).find? (fun j => decide (i ≤ j) && isPrefixAt pat s j)

/-- Embedding of `re.search(rf"<{e}>(.*?)</{e}>", s, re.DOTALL)` followed by
`.group(1).strip()`, for element names free of regex metacharacters (the
program only ever passes `initial_prompt`, `user_response`, `category` and
`thinking`): leftmost-match semantics picks the first opening tag that is
followed by a closing tag, and the lazy group stops at the first closing tag
after it; `.` under `DOTALL` spans newlines.  `none` when no tag pair exists:
a missing tag is a normal outcome, not an error. -/
def extractElementCore (s e : List Char) : Option (List Char) :=
  let op := ('<' :: e) ++ ['>']
  let cl := ('<' :: '/' :: e) ++ ['>']
  match (List.range (s.length + 1)).find?
      (fun i => isPrefixAt op s i && (findFrom cl s (i + op.length)).isSome) with
  | none => none
  | some i =>
    match findFrom cl s (i + op.length) with
    | none => none
    | some j => some (pyStrip ((s.drop (i + op.length)).take (j - (i + op.length))))

/-- String-level wrapper of `extractElementCore`: the extraction of one
element name from one completion. -/
def extractElement (xmlData e : String) : Option String :=
  (extractElementCore xmlData.toList e.toList).map String.mk

/-- Embedding of `Claude3Evaluator._extract_content_from_xml`: the loop
`for e in element_names: content.append(...)`, one extraction per requested
element name, in order.  The Lean function is total: no input raises. -/
def extractContentFromXml (xmlData : String) : List String → List (Option String)
  | [] => []
  | e :: rest => extractElement xmlData e :: extractContentFromXml xmlData rest

/-- Modelled from the spec: `Conversation` (§3) — an ordered sequence of
`(role, text)` message pairs plus a `turns` counter; the class itself is not
part of the excerpted sources. -/
structure Conversation where
  messages : List (String × String)
  turns : Nat
deriving DecidableEq

/-- Modelled from the spec: `Conversation.add_turn` appends one strict
`(user, agent)` pair and increments the turn counter (§3: messages are only
appended in strict user/agent pairs, `turns == len(messages)/2`). -/
def Conversation.add_turn (c : Conversation) (userInput agentResponse : String) :
    Conversation :=
  { messages := c.messages ++ [("user", userInput), ("agent", agentResponse)],
    turns := c.turns + 1 }

/-- One `Test` (spec §3).  `initialPrompt` is optional; Python truthiness
treats an empty string like an absent prompt. -/
structure Test where
  name : String
  steps : List String
  initialPrompt : Option String
  expectedResults : List String
  maxTurns : Nat
deriving DecidableEq

/-- Python truthiness of `self.test.initial_prompt`: set iff non-null and
non-empty. -/
def initialPromptSet : Option String → Bool
  | none => false
  | some s => !(s == "")

/-- The module-level `model_configs.REQUEST_BODY`, restricted to the two
fields `_generate` writes: `request_body["system"]` and
`request_body["messages"][0]["content"][0]["text"]`. -/
structure RequestBody where
  system : String
  text : String
deriving DecidableEq

/-- Modelled from the spec: `TestResult` (§3), the record built at the end of
`evaluate`.  `reasoning` is `Option String` because the Python variable holds
either a string or `None` (a missing `thinking` extraction). -/
structure TestResult where
  testName : String
  passed : Bool
  result : String
  reasoning : Option String
  conversation : Conversation
deriving DecidableEq

/-- Ghost record of the judge calls that drive control flow: one event per
`_generate_test_status` call (with the extracted category) and one per
`_generate_evaluation` call (with the raw completion and both extracted
fields). -/
inductive JEvent where
  | statusCheck (category : Option String)
  | evalCall (completion : String) (category reasoning : Option String)
deriving DecidableEq

/-- Discriminator for evaluation-judge events. -/
def isEvalCall : JEvent → Bool
  | .statusCheck _ => false
  | .evalCall _ _ _ => true

/-- Mutable state threaded through one `evaluate` run besides the
`Conversation`: the shared module-level request body, the call counters
indexing the external oracles, and the ghost event log.  Trace recording
(`self.trace.add_step`), which never influences control flow, is not
modelled. -/
structure MiscState where
  requestBody : RequestBody
  judgeCalls : Nat
  targetCalls : Nat
  events : List JEvent
deriving DecidableEq

/-- External collaborators (spec §6), modelled as oracles: `judge k` is the
raw completion text of the k-th judge-model call of the run, `target k` the
k-th reply of the agent under test; the remaining fields model the rendered
prompt templates (pure functions per §6). -/
structure Env where
  judge : Nat → String
  target : Nat → String
  initialPromptSystem : String
  initialPromptTmpl : String → String
  userResponseSystem : String
  userResponseTmpl : List String → Conversation → String
  testStatusSystem : String
  testStatusTmpl : List String → Conversation → String
  evaluationSystem : String
  evaluationTmpl : List String → Conversation → String

namespace TestStatusCategories

/-- Label `TestStatusCategories.ALL_STEPS_ATTEMPTED`. -/
def ALL_STEPS_ATTEMPTED : String := "A"

/-- Label `TestStatusCategories.NOT_ALL_STEPS_ATTEMPTED`. -/
def NOT_ALL_STEPS_ATTEMPTED : String := "B"

end TestStatusCategories

namespace EvaluationCategories

/-- Label `EvaluationCategories.ALL_EXPECTED_RESULTS_OBSERVED`. -/
def ALL_EXPECTED_RESULTS_OBSERVED : String := "A"

/-- Label `EvaluationCategories.NOT_ALL_EXPECTED_RESULTS_OBSERVED`. -/
def NOT_ALL_EXPECTED_RESULTS_OBSERVED : String := "B"

end EvaluationCategories

namespace Results

/-- Label `Results.MAX_TURNS_REACHED.value`. -/
def MAX_TURNS_REACHED : String := "Maximum turns reached."

/-- Label `Results.ALL_EXPECTED_RESULTS_OBSERVED.value`. -/
def ALL_EXPECTED_RESULTS_OBSERVED : String :=
  "All of the expected results can be observed in the conversation."

/-- Label `Results.NOT_ALL_EXPECTED_RESULTS_OBSERVED.value`. -/
def NOT_ALL_EXPECTED_RESULTS_OBSERVED : String :=
  "Not all of the expected results can be observed in the conversation."

end Results

/-- Embedding of `Claude3Evaluator._generate`: overwrite the two shared request-body fields
with the given prompts, invoke the judge model (the next oracle completion),
and extract the requested element together with `thinking`.  The two
extractions inline `_extract_content_from_xml(completion, [output_xml_element,
"thinking"])`; see `extract_pair`. -/
def generate (env : Env) (ms : MiscState)
    (systemPrompt prompt outputXmlElement : String) :
    (Option String × Option String) × MiscState :=
  let completion := env.judge ms.judgeCalls
  ((extractElement completion outputXmlElement, extractElement completion "thinking"),
   { ms with requestBody := { system := systemPrompt, text := prompt },
             judgeCalls := ms.judgeCalls + 1 })

/-- Embedding of `Claude3Evaluator._generate_initial_prompt`: render the templates from the
first step and call `_generate` for the `initial_prompt` element. -/
def generateInitialPrompt (env : Env) (test : Test) (ms : MiscState) :
    Option String × MiscState :=
  let r := generate env ms env.initialPromptSystem
    (env.initialPromptTmpl (test.steps.headD "")) "initial_prompt"
  (r.1.1, r.2)

/-- Embedding of `Claude3Evaluator._generate_user_response`: render the templates from the
full step list and conversation and call `_generate` for `user_response`. -/
def generateUserResponse (env : Env) (test : Test) (conv : Conversation)
    (ms : MiscState) : Option String × MiscState :=
  let r := generate env ms env.userResponseSystem
    (env.userResponseTmpl test.steps conv) "user_response"
  (r.1.1, r.2)

/-- Embedding of `Claude3Evaluator._generate_test_status`: call `_generate` for the
`category` element; a ghost `statusCheck` event records the extracted
category. -/
def generateTestStatus (env : Env) (test : Test) (conv : Conversation)
    (ms : MiscState) : Option String × MiscState :=
  let r := generate env ms env.testStatusSystem
    (env.testStatusTmpl test.steps conv) "category"
  (r.1.1, { r.2 with events := r.2.events ++ [.statusCheck r.1.1] })

/-- Embedding of `Claude3Evaluator._generate_evaluation`: call `_generate` for the
`category` element against the expected results, returning both the category
and the reasoning; a ghost `evalCall` event records the consumed completion
and both extracted fields. -/
def generateEvaluation (env : Env) (test : Test) (conv : Conversation)
    (ms : MiscState) : (Option String × Option String) × MiscState :=
  let completion := env.judge ms.judgeCalls
  let r := generate env ms env.evaluationSystem
    (env.evaluationTmpl test.expectedResults conv) "category"
  (r.1, { r.2 with events := r.2.events ++ [.evalCall completion r.1.1 r.1.2] })

/-- Embedding of `Claude3Evaluator._invoke_target`: one call of the agent under test (the
next target-oracle reply). -/
def invokeTarget (env : Env) (ms : MiscState) (userInput : String) :
    String × MiscState :=
  (env.target ms.targetCalls, { ms with targetCalls := ms.targetCalls + 1 })

/-- The retry loop `while user_input is None and n < 4`, with `fuel = 4 - n`
the number of retries still allowed. -/
def retryLoop (gen : MiscState → Option String × MiscState) :
    Nat → Option String → MiscState → Option String × MiscState
  | _, some u, ms => (some u, ms)
  | 0, none, ms => (none, ms)
  | fuel + 1, none, ms =>
    let r := gen ms
    retryLoop gen fuel r.1 r.2

/-- Step 1 of each loop iteration of `evaluate`, before the fallback check:
on the first turn a set `initial_prompt` is used verbatim, otherwise the
matching generator runs once plus at most 4 retries (evaluator.py lines
227-246). -/
def produceUserInputRaw (env : Env) (test : Test) (conv : Conversation)
    (ms : MiscState) : Option String × MiscState :=
  if conv.turns = 0 then
    if initialPromptSet test.initialPrompt then
      (some (test.initialPrompt.getD ""), ms)
    else
      let r0 := generateInitialPrompt env test ms
      retryLoop (fun s => generateInitialPrompt env test s) 4 r0.1 r0.2
  else
    let r0 := generateUserResponse env test conv ms
    retryLoop (fun s => generateUserResponse env test conv s) 4 r0.1 r0.2

/-- Step 1 of each loop iteration of `evaluate`: a user input that is still
`None` after all attempts falls back to the fixed sentinel line
(evaluator.py lines 249-251). -/
def produceUserInput (env : Env) (test : Test) (conv : Conversation)
    (ms : MiscState) : String × MiscState :=
  match produceUserInputRaw env test conv ms with
  | (some u, s) => (u, s)
  | (none, s) => ("Please repeat your response in the same language.", s)

/-- Construct the final `TestResult` (the trailing return of `evaluate`). -/
def mkTestResult (test : Test) (passed : Bool) (result : String)
    (reasoning : Option String) (conv : Conversation) : TestResult :=
  { testName := test.name, passed := passed, result := result,
    reasoning := reasoning, conversation := conv }

/-- The verdict branch of `evaluate` (evaluator.py lines 263-270): the exact
negative label yields failure; every other evaluation category, a null
extraction included, yields success. -/
def evalVerdict (test : Test) (conv : Conversation)
    (evalCategory reasoning : Option String) : TestResult :=
  if evalCategory = some EvaluationCategories.NOT_ALL_EXPECTED_RESULTS_OBSERVED then
    mkTestResult test false Results.NOT_ALL_EXPECTED_RESULTS_OBSERVED reasoning conv
  else
    mkTestResult test true Results.ALL_EXPECTED_RESULTS_OBSERVED reasoning conv

/-- The `while self.conversation.turns < self.test.max_turns` loop of
`Claude3Evaluator.evaluate`.  The structural argument `fuel` equals
`test.maxTurns - conv.turns`: each iteration appends exactly one turn
(`Conversation.add_turn`), so `fuel = 0` holds exactly when the Python guard
`conversation.turns < max_turns` fails (`evalLoop_guard`).  Exhaustion keeps
the initial `passed = False`, `result = MAX_TURNS_REACHED`, `reasoning = ""`
from lines 222-224. -/
def evalLoop (env : Env) (test : Test) :
    Nat → Conversation → MiscState → TestResult × MiscState
  | 0, conv, ms =>
    (mkTestResult test false Results.MAX_TURNS_REACHED (some "") conv, ms)
  | fuel + 1, conv, ms =>
    let p := produceUserInput env test conv ms
    let q := invokeTarget env p.2 p.1
    let conv2 := conv.add_turn p.1 q.1
    let r := generateTestStatus env test conv2 q.2
    if r.1 = some TestStatusCategories.ALL_STEPS_ATTEMPTED then
      let s := generateEvaluation env test conv2 r.2
      (evalVerdict test conv2 s.1.1 s.1.2, s.2)
    else
      evalLoop env test fuel conv2 r.2

/-- Embedding of `Claude3Evaluator.evaluate`: run the turn loop from an empty conversation.
The returned pair is the `TestResult` together with the post-state of the
shared mutable data. -/
def evaluate (env : Env) (test : Test) (ms : MiscState) :
    TestResult × MiscState :=
  evalLoop env test test.maxTurns { messages := [], turns := 0 } ms

/-- A run fragment of the ghost event log is evaluation-free when it records
no `_generate_evaluation` call. -/
def EvalFree (l : List JEvent) : Prop := ∀ e ∈ l, isEvalCall e = false

/-- Characterisation of one finished run: either the loop exhausted its turns
with no evaluation event and the default failure verdict, or it ended in the
single iteration whose status category was `A`, recording exactly one
evaluation event whose extracted category and reasoning determine the
verdict. -/
def RunOutcome (l : List JEvent) (r : TestResult) : Prop :=
  (EvalFree l ∧ r.passed = false ∧ r.result = Results.MAX_TURNS_REACHED ∧
    r.reasoning = some "") ∨
  (∃ l₀ comp,
    l = l₀ ++ [JEvent.statusCheck (some TestStatusCategories.ALL_STEPS_ATTEMPTED),
               JEvent.evalCall comp (extractElement comp "category")
                 (extractElement comp "thinking")] ∧
    EvalFree l₀ ∧
    r.reasoning = extractElement comp "thinking" ∧
    (extractElement comp "category" =
        some EvaluationCategories.NOT_ALL_EXPECTED_RESULTS_OBSERVED →
      r.passed = false ∧ r.result = Results.NOT_ALL_EXPECTED_RESULTS_OBSERVED) ∧
    (extractElement comp "category" ≠
        some EvaluationCategories.NOT_ALL_EXPECTED_RESULTS_OBSERVED →
      r.passed = true ∧ r.result = Results.ALL_EXPECTED_RESULTS_OBSERVED))

/-- Judge oracle returning the same completion on every call; target always
answers `OK`; all templates render to the empty string. -/
def constEnv (j : String) : Env :=
  { judge := fun _ => j, target := fun _ => "OK",
    initialPromptSystem := "", initialPromptTmpl := fun _ => "",
    userResponseSystem := "", userResponseTmpl := fun _ _ => "",
    testStatusSystem := "", testStatusTmpl := fun _ _ => "",
    evaluationSystem := "", evaluationTmpl := fun _ _ => "" }

/-- Environment with a call-indexed judge oracle. -/
def seqEnv (j : Nat → String) : Env := { constEnv "" with judge := j }

/-- Fresh shared state at the start of a process. -/
def ms0 : MiscState :=
  { requestBody := { system := "", text := "" },
    judgeCalls := 0, targetCalls := 0, events := [] }

/-- A one-step test scenario with the given initial prompt and turn bound. -/
def mkTest (ip : Option String) (mt : Nat) : Test :=
  { name := "t", steps := ["step one"], initialPrompt := ip,
    expectedResults := ["r"], maxTurns := mt }

/-- Judge oracle whose first completion carries category `A` (test status)
and whose second carries category `B` (evaluation). -/
def envAB : Env :=
  seqEnv (fun k => if k = 0 then "<category>A</category>" else "<category>B</category>")

/-- The pair of extractions performed by `generate` is exactly
`_extract_content_from_xml` applied to the two-element name list. -/
theorem extract_pair (completion e : String) :
    extractContentFromXml completion [e, "thinking"] =
      [extractElement completion e, extractElement completion "thinking"] := rfl

/-- Correspondence between the fuel of `evalLoop` and the Python loop guard:
under the invariant `conv.turns + fuel = test.maxTurns`, the loop has fuel
left exactly when `conversation.turns < max_turns`. -/
theorem evalLoop_guard (test : Test) (conv : Conversation) (fuel : Nat)
    (h : conv.turns + fuel = test.maxTurns) :
    0 < fuel ↔ conv.turns < test.maxTurns := by omega

theorem generate_events (env : Env) (ms : MiscState) (sp p el : String) :
    (generate env ms sp p el).2.events = ms.events := rfl

theorem retryLoop_events (gen : MiscState → Option String × MiscState)
    (h : ∀ s, (gen s).2.events = s.events) :
    ∀ (n : Nat) (u : Option String) (ms : MiscState),
      (retryLoop gen n u ms).2.events = ms.events := by
  intro n
  induction n with
  | zero => intro u ms; cases u <;> rfl
  | succ k ih =>
    intro u ms
    cases u with
    | some v => rfl
    | none => simp only [retryLoop]; rw [ih, h]

theorem produceUserInputRaw_events (env : Env) (test : Test)
    (conv : Conversation) (ms : MiscState) :
    (produceUserInputRaw env test conv ms).2.events = ms.events := by
  unfold produceUserInputRaw
  by_cases h0 : conv.turns = 0
  · rw [if_pos h0]
    by_cases hip : initialPromptSet test.initialPrompt
    · rw [if_pos hip]
    · rw [if_neg hip]
      rw [retryLoop_events _ (fun s => rfl)]
      rfl
  · rw [if_neg h0]
    rw [retryLoop_events _ (fun s => rfl)]
    rfl

theorem produceUserInput_snd (env : Env) (test : Test) (conv : Conversation)
    (ms : MiscState) :
    (produceUserInput env test conv ms).2 =
      (produceUserInputRaw env test conv ms).2 := by
  unfold produceUserInput
  rcases h : produceUserInputRaw env test conv ms with ⟨u, s⟩
  cases u <;> rfl

theorem produceUserInput_events (env : Env) (test : Test) (conv : Conversation)
    (ms : MiscState) :
    (produceUserInput env test conv ms).2.events = ms.events := by
  rw [produceUserInput_snd, produceUserInputRaw_events]

theorem invokeTarget_events (env : Env) (ms : MiscState) (u : String) :
    (invokeTarget env ms u).2.events = ms.events := rfl

theorem generateTestStatus_events (env : Env) (test : Test)
    (conv : Conversation) (ms : MiscState) :
    (generateTestStatus env test conv ms).2.events =
      ms.events ++ [JEvent.statusCheck (generateTestStatus env test conv ms).1] :=
  rfl

theorem generateEvaluation_events (env : Env) (test : Test)
    (conv : Conversation) (ms : MiscState) :
    (generateEvaluation env test conv ms).2.events =
      ms.events ++ [JEvent.evalCall (env.judge ms.judgeCalls)
        (extractElement (env.judge ms.judgeCalls) "category")
        (extractElement (env.judge ms.judgeCalls) "thinking")] := rfl

theorem generateEvaluation_fst (env : Env) (test : Test)
    (conv : Conversation) (ms : MiscState) :
    (generateEvaluation env test conv ms).1 =
      (extractElement (env.judge ms.judgeCalls) "category",
       extractElement (env.judge ms.judgeCalls) "thinking") := rfl

theorem evalFree_nil : EvalFree [] := by
  intro e he
  cases he

theorem evalFree_cons (c : Option String) {l : List JEvent} (h : EvalFree l) :
    EvalFree (JEvent.statusCheck c :: l) := by
  intro e he
  rcases List.mem_cons.mp he with h1 | h1
  · subst h1; rfl
  · exact h e h1

theorem evalVerdict_reasoning (test : Test) (conv : Conversation)
    (ec rs : Option String) : (evalVerdict test conv ec rs).reasoning = rs := by
  unfold evalVerdict
  split <;> rfl

theorem evalVerdict_conversation (test : Test) (conv : Conversation)
    (ec rs : Option String) : (evalVerdict test conv ec rs).conversation = conv := by
  unfold evalVerdict
  split <;> rfl

theorem evalVerdict_neg (test : Test) (conv : Conversation)
    {ec : Option String} (rs : Option String)
    (h : ec = some EvaluationCategories.NOT_ALL_EXPECTED_RESULTS_OBSERVED) :
    (evalVerdict test conv ec rs).passed = false ∧
      (evalVerdict test conv ec rs).result =
        Results.NOT_ALL_EXPECTED_RESULTS_OBSERVED := by
  unfold evalVerdict
  rw [if_pos h]
  exact ⟨rfl, rfl⟩

theorem evalVerdict_pos (test : Test) (conv : Conversation)
    {ec : Option String} (rs : Option String)
    (h : ec ≠ some EvaluationCategories.NOT_ALL_EXPECTED_RESULTS_OBSERVED) :
    (evalVerdict test conv ec rs).passed = true ∧
      (evalVerdict test conv ec rs).result =
        Results.ALL_EXPECTED_RESULTS_OBSERVED := by
  unfold evalVerdict
  rw [if_neg h]
  exact ⟨rfl, rfl⟩

theorem evalLoop_run (env : Env) (test : Test) :
    ∀ (fuel : Nat) (conv : Conversation) (ms : MiscState),
      ∃ l : List JEvent,
        (evalLoop env test fuel conv ms).2.events = ms.events ++ l ∧
        RunOutcome l (evalLoop env test fuel conv ms).1 := by
  intro fuel
  induction fuel with
  | zero =>
    intro conv ms
    exact ⟨[], by simp [evalLoop], Or.inl ⟨evalFree_nil, rfl, rfl, rfl⟩⟩
  | succ n ih =>
    intro conv ms
    simp only [evalLoop]
    set p := produceUserInput env test conv ms with hp
    set q := invokeTarget env p.2 p.1 with hq
    set conv2 := conv.add_turn p.1 q.1 with hconv2
    set r := generateTestStatus env test conv2 q.2 with hr
    have hrev : r.2.events = ms.events ++ [JEvent.statusCheck r.1] := by
      rw [hr, generateTestStatus_events]
      have h1 : q.2.events = ms.events := by
        rw [hq, invokeTarget_events, hp, produceUserInput_events]
      rw [h1]
    by_cases hA : r.1 = some TestStatusCategories.ALL_STEPS_ATTEMPTED
    · rw [if_pos hA]
      set s := generateEvaluation env test conv2 r.2 with hs
      refine ⟨[JEvent.statusCheck (some TestStatusCategories.ALL_STEPS_ATTEMPTED),
               JEvent.evalCall (env.judge r.2.judgeCalls)
                 (extractElement (env.judge r.2.judgeCalls) "category")
                 (extractElement (env.judge r.2.judgeCalls) "thinking")],
             ?_, Or.inr ?_⟩
      · rw [hs, generateEvaluation_events, hrev, hA]
        simp
      · refine ⟨[], env.judge r.2.judgeCalls, by simp, evalFree_nil, ?_, ?_, ?_⟩
        · rw [evalVerdict_reasoning, hs, generateEvaluation_fst]
        · intro hB
          refine evalVerdict_neg test conv2 _ ?_
          rw [hs, generateEvaluation_fst]
          exact hB
        · intro hB
          refine evalVerdict_pos test conv2 _ ?_
          rw [hs, generateEvaluation_fst]
          exact hB
    · rw [if_neg hA]
      obtain ⟨l', hev, hout⟩ := ih conv2 r.2
      refine ⟨JEvent.statusCheck r.1 :: l', ?_, ?_⟩
      · rw [hev, hrev]
        simp
      · rcases hout with ⟨hfree, hpa, hre, hrs⟩ | ⟨l₀, comp, hl, hfree, hrs, hneg, hpos⟩
        · exact Or.inl ⟨evalFree_cons _ hfree, hpa, hre, hrs⟩
        · refine Or.inr ⟨JEvent.statusCheck r.1 :: l₀, comp, ?_,
            evalFree_cons _ hfree, hrs, hneg, hpos⟩
          rw [hl]
          rfl

theorem evalLoop_turns (env : Env) (test : Test) :
    ∀ (fuel : Nat) (conv : Conversation) (ms : MiscState),
      conv.turns + fuel ≤ test.maxTurns →
      (evalLoop env test fuel conv ms).1.conversation.turns ≤ test.maxTurns := by
  intro fuel
  induction fuel with
  | zero =>
    intro conv ms h
    show conv.turns ≤ test.maxTurns
    omega
  | succ n ih =>
    intro conv ms h
    simp only [evalLoop]
    set p := produceUserInput env test conv ms with hp
    set q := invokeTarget env p.2 p.1 with hq
    set conv2 := conv.add_turn p.1 q.1 with hconv2
    set r := generateTestStatus env test conv2 q.2 with hr
    have hturns : conv2.turns = conv.turns + 1 := by rw [hconv2]; rfl
    by_cases hA : r.1 = some TestStatusCategories.ALL_STEPS_ATTEMPTED
    · rw [if_pos hA]
      simp only [evalVerdict_conversation]
      omega
    · rw [if_neg hA]
      exact ih conv2 r.2 (by omega)

theorem evalLoop_messages (env : Env) (test : Test) :
    ∀ (fuel : Nat) (conv : Conversation) (ms : MiscState),
      ∃ rest, (evalLoop env test fuel conv ms).1.conversation.messages =
        conv.messages ++ rest := by
  intro fuel
  induction fuel with
  | zero =>
    intro conv ms
    exact ⟨[], by simp [evalLoop, mkTestResult]⟩
  | succ n ih =>
    intro conv ms
    simp only [evalLoop]
    set p := produceUserInput env test conv ms with hp
    set q := invokeTarget env p.2 p.1 with hq
    set conv2 := conv.add_turn p.1 q.1 with hconv2
    set r := generateTestStatus env test conv2 q.2 with hr
    have hmsg : conv2.messages = conv.messages ++ [("user", p.1), ("agent", q.1)] := by
      rw [hconv2]
      rfl
    by_cases hA : r.1 = some TestStatusCategories.ALL_STEPS_ATTEMPTED
    · rw [if_pos hA]
      exact ⟨[("user", p.1), ("agent", q.1)],
        by simp only [evalVerdict_conversation, hmsg]⟩
    · rw [if_neg hA]
      obtain ⟨rest, hrest⟩ := ih conv2 r.2
      exact ⟨[("user", p.1), ("agent", q.1)] ++ rest,
        by rw [hrest, hmsg]; simp⟩

theorem retryLoop_all_none (env : Env) (el : String)
    (gen : MiscState → Option String × MiscState)
    (hfst : ∀ s, (gen s).1 = extractElement (env.judge s.judgeCalls) el)
    (hjc : ∀ s, (gen s).2.judgeCalls = s.judgeCalls + 1) :
    ∀ (n : Nat) (ms : MiscState),
      (∀ k, k < n → extractElement (env.judge (ms.judgeCalls + k)) el = none) →
      (retryLoop gen n none ms).1 = none ∧
      (retryLoop gen n none ms).2.judgeCalls = ms.judgeCalls + n := by
  intro n
  induction n with
  | zero => intro ms h; exact ⟨rfl, rfl⟩
  | succ k ih =>
    intro ms h
    have h0 : (gen ms).1 = none := by
      rw [hfst]
      simpa using h 0 (Nat.succ_pos k)
    simp only [retryLoop, h0]
    have hrec := ih (gen ms).2 ?_
    · refine ⟨hrec.1, ?_⟩
      rw [hrec.2, hjc]
      omega
    · intro j hj
      have hj1 := h (j + 1) (by omega)
      have he : (gen ms).2.judgeCalls + j = ms.judgeCalls + (j + 1) := by
        rw [hjc]
        omega
      rw [he]
      exact hj1

/-- C7: `_extract_content_from_xml` returns one entry per requested element
name, in the requested order; each entry is the per-element extraction (the
trimmed text between the first matching tag pair under leftmost, lazy,
newline-spanning semantics, `none` when the pair is absent).  Extracting
`category` from `<category>A</category>` yields `A`, a completion without
such tags yields `none`, tags spanning newlines are trimmed, and the
function (being total) never raises. -/
theorem extractContentFromXml_contract (xml : String) (names : List String) :
    (extractContentFromXml xml names).length = names.length ∧
    extractContentFromXml xml names = names.map (fun e => extractElement xml e) ∧
    extractContentFromXml "<category>A</category>" ["category"] = [some "A"] ∧
    extractContentFromXml "no category tags here" ["category"] = [none] ∧
    extractElement "<category>\n  A\n</category>" "category" = some "A" := by
  have hmap : ∀ ns : List String,
      extractContentFromXml xml ns = ns.map (fun e => extractElement xml e) := by
    intro ns
    induction ns with
    | nil => rfl
    | cons e rest ih => simp [extractContentFromXml, ih]
  refine ⟨?_, hmap names, by decide, by decide, by decide⟩
  rw [hmap names]
  exact List.length_map _ _

/-- C9: `_extract_content_from_xml` is a deterministic pure function of its
two inputs: two extractions of the same completion with the same element
names yield identical results. -/
theorem extractContentFromXml_deterministic (xml : String) (names : List String)
    (r₁ r₂ : List (Option String))
    (h1 : extractContentFromXml xml names = r₁)
    (h2 : extractContentFromXml xml names = r₂) : r₁ = r₂ :=
  h1.symm.trans h2

/-- Witness for C9: both extractions of `<x>1</x>` for `[x, y]` evaluate to
`[some 1, none]`, and the theorem identifies them. -/
theorem extractContentFromXml_deterministic_witness :
    extractContentFromXml "<x>1</x>" ["x", "y"] = [some "1", none] ∧
    ([some "1", none] : List (Option String)) = [some "1", none] :=
  ⟨by decide,
   extractContentFromXml_deterministic "<x>1</x>" ["x", "y"]
     [some "1", none] [some "1", none] (by decide) (by decide)⟩

/-- C8 counterexample: the claim that `_generate` leaves the module-level
`REQUEST_BODY` unchanged is false — after one call with a fresh system
prompt, the shared request body differs from its prior value. -/
theorem generate_request_body_unchanged_claim_false :
    ¬ ((generate (constEnv "") ms0 "system text" "prompt text"
        "category").2.requestBody = ms0.requestBody) := by decide

/-- C8 amended: `_generate` overwrites the two fields of the shared
module-level `REQUEST_BODY` in place with its prompt arguments (and advances
the judge-call counter); it changes nothing else.  Distinct runs therefore
do share this mutable dict, while each run still owns its own conversation
(the evaluator state outside `REQUEST_BODY` and the counters is untouched by
`_generate`). -/
theorem generate_request_body_effect (env : Env) (ms : MiscState)
    (systemPrompt prompt outputXmlElement : String) :
    (generate env ms systemPrompt prompt outputXmlElement).2 =
      { ms with requestBody := { system := systemPrompt, text := prompt },
                judgeCalls := ms.judgeCalls + 1 } := rfl

/-- C2: with `max_turns ≥ 1` the run terminates with a conversation of at
most `max_turns` turns, and each loop iteration advances the conversation by
exactly one turn. -/
theorem evaluate_turns_bounded (env : Env) (test : Test) (ms : MiscState)
    (h : 1 ≤ test.maxTurns) :
    (evaluate env test ms).1.conversation.turns ≤ test.maxTurns ∧
    ∀ (c : Conversation) (u a : String),
      (Conversation.add_turn c u a).turns = c.turns + 1 := by
  refine ⟨?_, fun c u a => rfl⟩
  unfold evaluate
  exact evalLoop_turns env test test.maxTurns { messages := [], turns := 0 } ms
    (by show 0 + test.maxTurns ≤ test.maxTurns; omega)

/-- Witness for C2 at a concrete two-turn scenario. -/
theorem evaluate_turns_bounded_witness :
    1 ≤ (mkTest (some "Hi") 2).maxTurns ∧
    (evaluate (constEnv "") (mkTest (some "Hi") 2) ms0).1.conversation.turns ≤
      (mkTest (some "Hi") 2).maxTurns :=
  ⟨by decide,
   (evaluate_turns_bounded (constEnv "") (mkTest (some "Hi") 2) ms0 (by decide)).1⟩

/-- C1: in every run that reaches evaluation (records an evaluation-judge
event), the extracted evaluation category determines the verdict: category
`B` (the not-all-observed label) yields `passed = false` with the
corresponding result label; any other category — the success label, a null
extraction, or an unrecognized string — yields `passed = true` with the
all-observed label. -/
theorem evaluate_evaluation_category_verdict (env : Env) (test : Test)
    (ms : MiscState) (comp : String) (c rs : Option String)
    (h0 : ms.events = [])
    (h1 : JEvent.evalCall comp c rs ∈ (evaluate env test ms).2.events) :
    (c = some EvaluationCategories.NOT_ALL_EXPECTED_RESULTS_OBSERVED →
      (evaluate env test ms).1.passed = false ∧
      (evaluate env test ms).1.result = Results.NOT_ALL_EXPECTED_RESULTS_OBSERVED) ∧
    (c ≠ some EvaluationCategories.NOT_ALL_EXPECTED_RESULTS_OBSERVED →
      (evaluate env test ms).1.passed = true ∧
      (evaluate env test ms).1.result = Results.ALL_EXPECTED_RESULTS_OBSERVED) := by
  unfold evaluate at h1 ⊢
  obtain ⟨l, hev, hout⟩ :=
    evalLoop_run env test test.maxTurns { messages := [], turns := 0 } ms
  rw [hev, h0, List.nil_append] at h1
  rcases hout with ⟨hfree, -, -, -⟩ | ⟨l₀, comp', hl, hfree, hrs, hneg, hpos⟩
  · have hfa := hfree _ h1
    simp [isEvalCall] at hfa
  · rw [hl] at h1
    have hx : JEvent.evalCall comp c rs =
        JEvent.evalCall comp' (extractElement comp' "category")
          (extractElement comp' "thinking") := by
      rcases List.mem_append.mp h1 with hm | hm
      · have hfa := hfree _ hm
        simp [isEvalCall] at hfa
      · rcases List.mem_cons.mp hm with he | he
        · exact absurd he (by simp)
        · rcases List.mem_cons.mp he with he2 | he2
          · exact he2
          · cases he2
    injection hx with hcomp hcat hrs2
    constructor
    · intro hB
      exact hneg (by rw [← hcat]; exact hB)
    · intro hB
      exact hpos (by rw [← hcat]; exact hB)

/-- Witness for C1: a run whose status check yields `A` and whose evaluation
completion carries category `B` fails with the not-all-observed label. -/
theorem evaluate_evaluation_category_verdict_witness :
    ms0.events = [] ∧
    (evaluate envAB (mkTest (some "Hi") 1) ms0).1.passed = false ∧
    (evaluate envAB (mkTest (some "Hi") 1) ms0).1.result =
      Results.NOT_ALL_EXPECTED_RESULTS_OBSERVED :=
  ⟨rfl,
   (evaluate_evaluation_category_verdict envAB (mkTest (some "Hi") 1) ms0
      "<category>B</category>" (some "B") none rfl (by decide)).1 rfl⟩

/-- C5: a run whose event log records no `A` status category never reaches
evaluation, so the loop exits by exhausting `max_turns` and the result is
the default failure verdict: `passed = false`, empty reasoning, and the
maximum-turns label. -/
theorem evaluate_max_turns_exhaustion (env : Env) (test : Test)
    (ms : MiscState) (h0 : ms.events = [])
    (h1 : ∀ e ∈ (evaluate env test ms).2.events,
      e ≠ JEvent.statusCheck (some TestStatusCategories.ALL_STEPS_ATTEMPTED)) :
    (evaluate env test ms).1.passed = false ∧
    (evaluate env test ms).1.reasoning = some "" ∧
    (evaluate env test ms).1.result = Results.MAX_TURNS_REACHED := by
  unfold evaluate at h1 ⊢
  obtain ⟨l, hev, hout⟩ :=
    evalLoop_run env test test.maxTurns { messages := [], turns := 0 } ms
  rw [hev, h0, List.nil_append] at h1
  rcases hout with ⟨-, hpa, hre, hrs⟩ | ⟨l₀, comp', hl, -, -, -, -⟩
  · exact ⟨hpa, hrs, hre⟩
  · exfalso
    refine h1 (JEvent.statusCheck (some TestStatusCategories.ALL_STEPS_ATTEMPTED))
      ?_ rfl
    rw [hl]
    simp

/-- Witness for C5: a judge that never emits a category exhausts the single
allowed turn and returns the maximum-turns failure. -/
theorem evaluate_max_turns_exhaustion_witness :
    ms0.events = [] ∧
    (evaluate (constEnv "") (mkTest (some "Hi") 1) ms0).1.passed = false ∧
    (evaluate (constEnv "") (mkTest (some "Hi") 1) ms0).1.reasoning = some "" ∧
    (evaluate (constEnv "") (mkTest (some "Hi") 1) ms0).1.result =
      Results.MAX_TURNS_REACHED :=
  ⟨rfl,
   evaluate_max_turns_exhaustion (constEnv "") (mkTest (some "Hi") 1) ms0
     rfl (by decide)⟩

/-- C4: the evaluation judge runs at most once per run, and only immediately
after a status check that extracted the `A` (all steps attempted) category;
any other status value leaves the loop running without evaluating. -/
theorem evaluate_evaluation_at_most_once (env : Env) (test : Test)
    (ms : MiscState) (h0 : ms.events = []) :
    (evaluate env test ms).2.events.countP isEvalCall ≤ 1 ∧
    ∀ (i : Nat) (e : JEvent), (evaluate env test ms).2.events[i]? = some e →
      isEvalCall e = true →
      0 < i ∧ (evaluate env test ms).2.events[i - 1]? =
        some (JEvent.statusCheck (some TestStatusCategories.ALL_STEPS_ATTEMPTED)) := by
  unfold evaluate
  obtain ⟨l, hev, hout⟩ :=
    evalLoop_run env test test.maxTurns { messages := [], turns := 0 } ms
  rw [hev, h0, List.nil_append]
  rcases hout with ⟨hfree, -, -, -⟩ | ⟨l₀, comp', hl, hfree, -, -, -⟩
  · constructor
    · have hc : l.countP isEvalCall = 0 :=
        List.countP_eq_zero.mpr (fun a ha => by simp [hfree a ha])
      omega
    · intro i e hi hev2
      have hfa := hfree _ (List.getElem?_mem hi)
      rw [hev2] at hfa
      simp at hfa
  · subst hl
    constructor
    · rw [List.countP_append]
      have hc0 : l₀.countP isEvalCall = 0 :=
        List.countP_eq_zero.mpr (fun a ha => by simp [hfree a ha])
      rw [hc0]
      simp [List.countP_cons, isEvalCall]
    · intro i e hi hev2
      rcases Nat.lt_trichotomy i l₀.length with hlt | heq | hgt
      · rw [List.getElem?_append_left hlt] at hi
        have hfa := hfree _ (List.getElem?_mem hi)
        rw [hev2] at hfa
        simp at hfa
      · rw [List.getElem?_append_right (by omega)] at hi
        have hz : i - l₀.length = 0 := by omega
        rw [hz] at hi
        simp at hi
        rw [← hi] at hev2
        simp [isEvalCall] at hev2
      · rcases Nat.lt_or_ge i (l₀.length + 2) with h2 | h2
        · have hi1 : i - l₀.length = 1 := by omega
          refine ⟨by omega, ?_⟩
          rw [List.getElem?_append_right (by omega : l₀.length ≤ i - 1)]
          have hi0 : i - 1 - l₀.length = 0 := by omega
          rw [hi0]
          rfl
        · rw [List.getElem?_append_right (by omega)] at hi
          rw [show i - l₀.length = (i - l₀.length - 2) + 2 from by omega] at hi
          simp at hi

/-- Witness for C4: in a concrete accepted run the single evaluation event
sits at index 1, directly after the `A` status check at index 0. -/
theorem evaluate_evaluation_at_most_once_witness :
    ms0.events = [] ∧
    (evaluate (constEnv "<category>A</category>") (mkTest (some "Hi") 1)
      ms0).2.events.countP isEvalCall ≤ 1 ∧
    (0 < 1 ∧ (evaluate (constEnv "<category>A</category>") (mkTest (some "Hi") 1)
      ms0).2.events[0]? =
        some (JEvent.statusCheck (some TestStatusCategories.ALL_STEPS_ATTEMPTED))) :=
  ⟨rfl,
   (evaluate_evaluation_at_most_once (constEnv "<category>A</category>")
     (mkTest (some "Hi") 1) ms0 rfl).1,
   (evaluate_evaluation_at_most_once (constEnv "<category>A</category>")
     (mkTest (some "Hi") 1) ms0 rfl).2 1
     (JEvent.evalCall "<category>A</category>" (some "A") none)
     (by decide) (by decide)⟩

/-- C10: when evaluation is reached but the evaluation completion contains
no `thinking` tag pair, the returned result's reasoning is the absent-field
marker `none` — it overwrites the initial empty string and is not an empty
string. -/
theorem evaluate_missing_thinking_reasoning_none (env : Env) (test : Test)
    (ms : MiscState) (comp : String) (c rs : Option String)
    (h0 : ms.events = [])
    (h1 : JEvent.evalCall comp c rs ∈ (evaluate env test ms).2.events)
    (h2 : extractElement comp "thinking" = none) :
    (evaluate env test ms).1.reasoning = none ∧
    (evaluate env test ms).1.reasoning ≠ some "" := by
  unfold evaluate at h1 ⊢
  obtain ⟨l, hev, hout⟩ :=
    evalLoop_run env test test.maxTurns { messages := [], turns := 0 } ms
  rw [hev, h0, List.nil_append] at h1
  rcases hout with ⟨hfree, -, -, -⟩ | ⟨l₀, comp', hl, hfree, hrs, -, -⟩
  · have hfa := hfree _ h1
    simp [isEvalCall] at hfa
  · rw [hl] at h1
    have hx : JEvent.evalCall comp c rs =
        JEvent.evalCall comp' (extractElement comp' "category")
          (extractElement comp' "thinking") := by
      rcases List.mem_append.mp h1 with hm | hm
      · have hfa := hfree _ hm
        simp [isEvalCall] at hfa
      · rcases List.mem_cons.mp hm with he | he
        · exact absurd he (by simp)
        · rcases List.mem_cons.mp he with he2 | he2
          · exact he2
          · cases he2
    injection hx with hcomp hcat hrs2
    have hnone : (evalLoop env test test.maxTurns { messages := [], turns := 0 }
        ms).1.reasoning = none := by
      rw [hrs, ← hcomp]
      exact h2
    exact ⟨hnone, by rw [hnone]; simp⟩

/-- Witness for C10: the evaluation completion `<category>A</category>` has
no `thinking` pair, and the run's reasoning is `none`. -/
theorem evaluate_missing_thinking_reasoning_none_witness :
    ms0.events = [] ∧
    extractElement "<category>A</category>" "thinking" = none ∧
    (evaluate (constEnv "<category>A</category>") (mkTest (some "Hi") 1)
      ms0).1.reasoning = none ∧
    (evaluate (constEnv "<category>A</category>") (mkTest (some "Hi") 1)
      ms0).1.reasoning ≠ some "" :=
  ⟨rfl, by decide,
   evaluate_missing_thinking_reasoning_none (constEnv "<category>A</category>")
     (mkTest (some "Hi") 1) ms0 "<category>A</category>" (some "A") none
     rfl (by decide) (by decide)⟩

/-- C6: when the test supplies a non-null, non-empty `initial_prompt`, the
first message pair's user text equals it exactly, and the first iteration's
input-production step performs no generation at all — it returns the prompt
with the state untouched (no judge call, neither generator invoked). -/
theorem evaluate_initial_prompt_verbatim (env : Env) (test : Test)
    (ms : MiscState) (s : String)
    (h1 : test.initialPrompt = some s) (h2 : s ≠ "")
    (h3 : 1 ≤ test.maxTurns) :
    ((evaluate env test ms).1.conversation.messages.head?).map Prod.snd = some s ∧
    produceUserInput env test { messages := [], turns := 0 } ms = (s, ms) := by
  have hset : initialPromptSet (some s) = true := by
    simp [initialPromptSet, h2]
  have hprod : produceUserInput env test { messages := [], turns := 0 } ms =
      (s, ms) := by
    unfold produceUserInput produceUserInputRaw
    simp [h1, hset]
  refine ⟨?_, hprod⟩
  unfold evaluate
  obtain ⟨f, hf⟩ : ∃ f, test.maxTurns = f + 1 := ⟨test.maxTurns - 1, by omega⟩
  rw [hf]
  simp only [evalLoop]
  rw [hprod]
  set q := invokeTarget env (s, ms).2 (s, ms).1 with hq
  set conv2 := Conversation.add_turn { messages := [], turns := 0 } (s, ms).1 q.1
    with hconv2
  set r := generateTestStatus env test conv2 q.2 with hr
  have hmsg : conv2.messages = [("user", s), ("agent", q.1)] := by
    rw [hconv2]
    simp [Conversation.add_turn]
  by_cases hA : r.1 = some TestStatusCategories.ALL_STEPS_ATTEMPTED
  · rw [if_pos hA]
    simp only [evalVerdict_conversation, hmsg]
    rfl
  · rw [if_neg hA]
    obtain ⟨rest, hrest⟩ := evalLoop_messages env test f conv2 r.2
    rw [hrest, hmsg]
    rfl

/-- Witness for C6: the test's fixed prompt `Hi` opens the conversation and
the production step leaves the state unchanged. -/
theorem evaluate_initial_prompt_verbatim_witness :
    (mkTest (some "Hi") 1).initialPrompt = some "Hi" ∧
    "Hi" ≠ "" ∧
    1 ≤ (mkTest (some "Hi") 1).maxTurns ∧
    ((evaluate (constEnv "") (mkTest (some "Hi") 1)
        ms0).1.conversation.messages.head?).map Prod.snd = some "Hi" ∧
    produceUserInput (constEnv "") (mkTest (some "Hi") 1)
      { messages := [], turns := 0 } ms0 = ("Hi", ms0) :=
  ⟨rfl, by decide, by decide,
   evaluate_initial_prompt_verbatim (constEnv "") (mkTest (some "Hi") 1) ms0
     "Hi" rfl (by decide) (by decide)⟩

/-- C3 counterexample: on an iteration where all 5 user-turn generation
attempts extract nothing, the produced user text is the code's literal
`Please repeat your response in the same language.` — it is NOT the
lowercase, period-free sentinel the claim states. -/
theorem produceUserInput_fallback_sentinel_claim_false :
    (∀ k, k < 5 →
      extractElement ((constEnv "").judge (ms0.judgeCalls + k))
        "user_response" = none) ∧
    (produceUserInput (constEnv "") (mkTest none 3)
        { messages := [("user", "hi"), ("agent", "ok")], turns := 1 } ms0).1 =
      "Please repeat your response in the same language." ∧
    (produceUserInput (constEnv "") (mkTest none 3)
        { messages := [("user", "hi"), ("agent", "ok")], turns := 1 } ms0).1 ≠
      "please repeat your response in the same language" :=
  ⟨by decide, by decide, by decide⟩

/-- C3 amended: when every one of the 5 generation attempts (1 initial plus
4 retries) of an iteration's input-production step extracts `None`, the
user text of that turn is the fixed literal
`Please repeat your response in the same language.` (capital P, trailing
period), exactly 5 judge calls were spent, the run is not aborted, and the
turn built from that text still advances the conversation by exactly one
`(user, agent)` pair. -/
theorem produceUserInput_fallback_sentinel (env : Env) (test : Test)
    (conv : Conversation) (ms : MiscState)
    (h : if conv.turns = 0
      then initialPromptSet test.initialPrompt = false ∧
        ∀ k, k < 5 →
          extractElement (env.judge (ms.judgeCalls + k)) "initial_prompt" = none
      else ∀ k, k < 5 →
        extractElement (env.judge (ms.judgeCalls + k)) "user_response" = none) :
    (produceUserInput env test conv ms).1 =
      "Please repeat your response in the same language." ∧
    (produceUserInput env test conv ms).2.judgeCalls = ms.judgeCalls + 5 ∧
    ∀ a, (conv.add_turn (produceUserInput env test conv ms).1 a).turns =
        conv.turns + 1 ∧
      (conv.add_turn (produceUserInput env test conv ms).1 a).messages =
        conv.messages ++
          [("user", "Please repeat your response in the same language."),
           ("agent", a)] := by
  have hraw : (produceUserInputRaw env test conv ms).1 = none ∧
      (produceUserInputRaw env test conv ms).2.judgeCalls =
        ms.judgeCalls + 5 := by
    by_cases h0 : conv.turns = 0
    · rw [if_pos h0] at h
      obtain ⟨hset, hnull⟩ := h
      have hbranch : produceUserInputRaw env test conv ms =
          retryLoop (fun s => generateInitialPrompt env test s) 4
            (generateInitialPrompt env test ms).1
            (generateInitialPrompt env test ms).2 := by
        unfold produceUserInputRaw
        rw [if_pos h0, if_neg (by simp [hset])]
      have hfirst : (generateInitialPrompt env test ms).1 = none := by
        show extractElement (env.judge ms.judgeCalls) "initial_prompt" = none
        simpa using hnull 0 (by omega)
      have hjc : (generateInitialPrompt env test ms).2.judgeCalls =
          ms.judgeCalls + 1 := rfl
      have hshift : ∀ k, k < 4 →
          extractElement
            (env.judge ((generateInitialPrompt env test ms).2.judgeCalls + k))
            "initial_prompt" = none := by
        intro k hk
        rw [hjc, show ms.judgeCalls + 1 + k = ms.judgeCalls + (k + 1) from by omega]
        exact hnull (k + 1) (by omega)
      have hrest := retryLoop_all_none env "initial_prompt"
        (fun s => generateInitialPrompt env test s)
        (fun s => rfl) (fun s => rfl) 4
        (generateInitialPrompt env test ms).2 hshift
      rw [hbranch, hfirst]
      refine ⟨hrest.1, ?_⟩
      rw [hrest.2, hjc]
    · rw [if_neg h0] at h
      have hbranch : produceUserInputRaw env test conv ms =
          retryLoop (fun s => generateUserResponse env test conv s) 4
            (generateUserResponse env test conv ms).1
            (generateUserResponse env test conv ms).2 := by
        unfold produceUserInputRaw
        rw [if_neg h0]
      have hfirst : (generateUserResponse env test conv ms).1 = none := by
        show extractElement (env.judge ms.judgeCalls) "user_response" = none
        simpa using h 0 (by omega)
      have hjc : (generateUserResponse env test conv ms).2.judgeCalls =
          ms.judgeCalls + 1 := rfl
      have hshift : ∀ k, k < 4 →
          extractElement
            (env.judge ((generateUserResponse env test conv ms).2.judgeCalls + k))
            "user_response" = none := by
        intro k hk
        rw [hjc, show ms.judgeCalls + 1 + k = ms.judgeCalls + (k + 1) from by omega]
        exact h (k + 1) (by omega)
      have hrest := retryLoop_all_none env "user_response"
        (fun s => generateUserResponse env test conv s)
        (fun s => rfl) (fun s => rfl) 4
        (generateUserResponse env test conv ms).2 hshift
      rw [hbranch, hfirst]
      refine ⟨hrest.1, ?_⟩
      rw [hrest.2, hjc]
  have hfall : produceUserInput env test conv ms =
      ("Please repeat your response in the same language.",
        (produceUserInputRaw env test conv ms).2) := by
    rcases hr : produceUserInputRaw env test conv ms with ⟨u, st⟩
    have hu : u = none := by
      have hx := hraw.1
      rw [hr] at hx
      exact hx
    subst hu
    unfold produceUserInput
    rw [hr]
  refine ⟨by rw [hfall], by rw [hfall]; exact hraw.2, ?_⟩
  intro a
  refine ⟨rfl, ?_⟩
  rw [hfall]
  rfl

/-- Witness for the amended C3: a concrete mid-conversation iteration whose
5 attempts all extract nothing produces the sentinel, spends 5 judge calls,
and the resulting turn appends exactly one pair. -/
theorem produceUserInput_fallback_sentinel_witness :
    (produceUserInput (constEnv "") (mkTest none 3)
        { messages := [("user", "hi"), ("agent", "ok")], turns := 1 } ms0).1 =
      "Please repeat your response in the same language." ∧
    (produceUserInput (constEnv "") (mkTest none 3)
        { messages := [("user", "hi"), ("agent", "ok")], turns := 1 }
        ms0).2.judgeCalls = ms0.judgeCalls + 5 ∧
    (Conversation.add_turn
        { messages := [("user", "hi"), ("agent", "ok")], turns := 1 }
        (produceUserInput (constEnv "") (mkTest none 3)
          { messages := [("user", "hi"), ("agent", "ok")], turns := 1 } ms0).1
        "OK").turns =
      ({ messages := [("user", "hi"), ("agent", "ok")], turns := 1 } :
        Conversation).turns + 1 :=
  ⟨(produceUserInput_fallback_sentinel (constEnv "") (mkTest none 3)
      { messages := [("user", "hi"), ("agent", "ok")], turns := 1 } ms0
      (by decide)).1,
   (produceUserInput_fallback_sentinel (constEnv "") (mkTest none 3)
      { messages := [("user", "hi"), ("agent", "ok")], turns := 1 } ms0
      (by decide)).2.1,
   ((produceUserInput_fallback_sentinel (constEnv "") (mkTest none 3)
      { messages := [("user", "hi"), ("agent", "ok")], turns := 1 } ms0
      (by decide)).2.2 "OK").1⟩

end AgentEval
